import Mathlib

/-
Verification of the discord-types codec layer: a shallow embedding of the
gateway payload decoder (src/event.rs), the bitflags visitor (src/bitflags.rs)
and the scalar codecs (src/types.rs), together with proofs about the claims
of the specification.

Modelling conventions:
 - Rust machine integers are modelled as Nat; where the width matters the
   bound is explicit (for example the u64 overflow check in string parsing).
 - JSON documents are modelled by the inductive type Json below.  Numeric
   tokens are modelled as non-negative integers, which covers every token the
   decoders under study accept (serde_json hands visit_u64 exactly those).
 - Fallible decoding is Except DecodeError.  The serde error constructors
   duplicate_field and missing_field are kept verbatim; every other serde
   error (invalid type, invalid value, custom) is collapsed into the single
   constructor DecodeError.invalid, because the specification distinguishes
   only DuplicateField, MissingField and InvalidValue.
 - The plain data records (Ready, Guild, Message, ...) are declared out of
   scope by the specification ("ordinary field containers with no decision
   logic"); the corresponding Event variants therefore carry the raw Json
   value of the d field.  No claim below depends on the field-by-field
   decoding of those records.  The small record Hello and the transparent
   InvalidSession are modelled in full.
-/

/-- Error type of the decoders.  duplicateField and missingField mirror
serde's duplicate_field and missing_field; invalid collapses every other
serde error (invalid type, invalid value, custom messages). -/
inductive DecodeError where
  | missingField (name : String)
  | duplicateField (name : String)
  | invalid
deriving DecidableEq, Repr

/-- JSON documents.  Numeric tokens are non-negative integers, which is the
exact set of tokens serde_json delivers to the visit_u64 entry points of the
visitors modelled here. -/
inductive Json where
  | null
  | bool (b : Bool)
  | num (n : Nat)
  | str (s : String)
  | arr (xs : List Json)
  | obj (fields : List (String × Json))

/-! ### Decimal printing and parsing

Models of the Rust standard library functions used by the sources:
format ("{}") on u64 (decimal printing) and str::parse::<u64>
(optional leading plus sign, one or more ASCII digits, overflow is an
error). -/

/-- Decimal digits of n, least significant first.  The first argument is
structural fuel; decDigits n n computes the digits of n (the empty list for
n = 0). -/
def decDigits : Nat → Nat → List Nat
  | 0, _ => []
  | _ + 1, 0 => []
  | fuel + 1, n + 1 => ((n + 1) % 10) :: decDigits fuel ((n + 1) / 10)

/-- Character of a single decimal digit. -/
def digitChar (d : Nat) : Char := Char.ofNat (48 + d)

/-- Model of Rust's Display for u64: the canonical decimal string. -/
def decimalRepr (n : Nat) : String :=
  if n = 0 then "0" else String.mk (((decDigits n n).reverse).map digitChar)

/-- Value of a little-endian digit list. -/
def lval : List Nat → Nat
  | [] => 0
  | d :: ds => d + 10 * lval ds

/-- Most-significant-first accumulator fold used by parsing. -/
def mval : List Nat → Nat → Nat
  | [], acc => acc
  | d :: ds, acc => mval ds (acc * 10 + d)

/-- Model of the digit loop of str::parse::<u64>: consume decimal digits
most significant first, failing on a non-digit character and on u64
overflow (checked arithmetic at every step). -/
def parseU64Digits : List Char → Nat → Option Nat
  | [], acc => some acc
  | c :: cs, acc =>
    if c.isDigit then
      if acc * 10 + (c.toNat - 48) < 2 ^ 64 then
        parseU64Digits cs (acc * 10 + (c.toNat - 48))
      else none
    else none

/-- Model of the sign handling of Rust integer parsing for unsigned types:
a single leading plus sign is skipped, a minus sign is not accepted (it is
left in place and then rejected as a non-digit). -/
def stripSign (cs : List Char) : List Char :=
  match cs with
  | '+' :: rest => rest
  | _ => cs

/-- Model of str::parse::<u64>. -/
def parseU64 (s : String) : Option Nat :=
  let cs := stripSign s.data
  if cs.isEmpty then none else parseU64Digits cs 0

/-! ### Snowflake (src/types.rs lines 15-113) -/

/-- DISCORD_EPOCH constant from src/types.rs. -/
def DISCORD_EPOCH : Nat := 1420070400000

/-- Model of Snowflake::date_time up to the chrono conversion: the code
computes (self.0 >> 22) + DISCORD_EPOCH and interprets it as Unix
milliseconds.  The chrono value is represented by that number. -/
def snowflakeDateTimeMillis (v : Nat) : Nat := (v >>> 22) + DISCORD_EPOCH

/-- Model of Snowflake::worker: (self.0 & 0x3E0000) >> 17. -/
def snowflakeWorker (v : Nat) : Nat := (v &&& 0x3E0000) >>> 17

/-- Model of Snowflake::process: (self.0 & 0x1F000) >> 12. -/
def snowflakeProcess (v : Nat) : Nat := (v &&& 0x1F000) >>> 12

/-- Model of Snowflake::increment: self.0 & 0xFFF. -/
def snowflakeIncrement (v : Nat) : Nat := v &&& 0xFFF

/-- Model of SnowflakeVisitor::visit_u64: any u64 is accepted as is. -/
def snowflakeVisitU64 (v : Nat) : Except DecodeError Nat := .ok v

/-- Model of SnowflakeVisitor::visit_str: parse as base-10 u64, any parse
failure is an invalid-value error. -/
def snowflakeVisitStr (s : String) : Except DecodeError Nat :=
  match parseU64 s with
  | some v => .ok v
  | none => .error .invalid

/-- Model of Serialize for Snowflake: always the decimal string. -/
def snowflakeSerialize (v : Nat) : String := decimalRepr v

/-! ### Calendar model

Model of chrono's conversion from Unix milliseconds to a UTC civil
date-time, used only to state the fixture decomposition claim.  The
function below is the standard proleptic-Gregorian days-from-civil
computation (valid for every year of the common era, which covers the
dates involved). -/

/-- Days from 0000-03-01 to the given civil date (proleptic Gregorian,
year at least 1, month 1-12, day 1-31). -/
def daysFromCivil (y m d : Nat) : Nat :=
  let yAdj := if m ≤ 2 then y - 1 else y
  let era := yAdj / 400
  let yoe := yAdj - era * 400
  let mp := if 2 < m then m - 3 else m + 9
  let doy := (153 * mp + 2) / 5 + d - 1
  let doe := yoe * 365 + yoe / 4 - yoe / 100 + doy
  era * 146097 + doe

/-- Unix milliseconds of a UTC civil instant (dates on or after 1970-01-01;
1970-01-01 is day 719468 of the era count used by daysFromCivil). -/
def civilToUnixMillis (y m d h mi s ms : Nat) : Nat :=
  ((daysFromCivil y m d - 719468) * 86400 + h * 3600 + mi * 60 + s) * 1000 + ms

/-! ### Flag sets (src/bitflags.rs, src/types.rs)

The single visitor BitFlagsVisitor is used by every flag set; its Bits type
is u32.  visit_u64 first narrows the u64 token to u32 with try_into (failing
on values of 32 bits or more of magnitude) and then calls from_bits, which
fails if any bit outside the union of the named flags is set. -/

/-- Model of BitFlagsVisitor::visit_u64 for a flag set whose named bits
union to allBits: narrow to u32, then from_bits. -/
def bitFlagsVisitU64 (allBits : Nat) (v : Nat) : Except DecodeError Nat :=
  if v < 2 ^ 32 then
    if v &&& allBits = v then .ok v else .error .invalid
  else .error .invalid

/-- Union of the named bits of Intents (src/types.rs lines 1139-1169; the
composite constants GUILD_ALL, DIRECT_MESSAGE_ALL and ALL are unions of the
primitive ones and add no bits). -/
def intentsAllBits : Nat :=
  (1 <<< 0) ||| (1 <<< 1) ||| (1 <<< 2) ||| (1 <<< 3) ||| (1 <<< 4) |||
  (1 <<< 5) ||| (1 <<< 6) ||| (1 <<< 7) ||| (1 <<< 8) ||| (1 <<< 9) |||
  (1 <<< 10) ||| (1 <<< 11) ||| (1 <<< 12) ||| (1 <<< 13) ||| (1 <<< 14) |||
  (1 <<< 15) ||| (1 <<< 16) ||| (1 <<< 20) ||| (1 <<< 21)

/-- Union of the named bits of UserFlags (src/types.rs lines 1218-1235). -/
def userFlagsAllBits : Nat :=
  (1 <<< 0) ||| (1 <<< 1) ||| (1 <<< 2) ||| (1 <<< 3) ||| (1 <<< 6) |||
  (1 <<< 7) ||| (1 <<< 8) ||| (1 <<< 9) ||| (1 <<< 10) ||| (1 <<< 12) |||
  (1 <<< 14) ||| (1 <<< 16) ||| (1 <<< 17) ||| (1 <<< 18) ||| (1 <<< 19) |||
  (1 <<< 22)

/-- Model of Deserialize for Intents: deserialize_u32 with BitFlagsVisitor
(serde_json hands the numeric token to visit_u64 regardless of the u32
hint). -/
def intentsDeserialize (v : Nat) : Except DecodeError Nat :=
  bitFlagsVisitU64 intentsAllBits v

/-- Model of Serialize for Intents: serialize_u32 of the raw bits. -/
def intentsSerialize (bits : Nat) : Nat := bits

/-- Model of Deserialize for UserFlags: deserialize_u64 with
BitFlagsVisitor (whose Bits type is still u32). -/
def userFlagsDeserialize (v : Nat) : Except DecodeError Nat :=
  bitFlagsVisitU64 userFlagsAllBits v

/-- Model of Serialize for UserFlags: serialize_u64 of the raw bits
(the u32 bits widened losslessly to u64). -/
def userFlagsSerialize (bits : Nat) : Nat := bits

/-! ### Color (src/types.rs lines 1012-1134) -/

/-- Model of TryFrom of u32 for Color: accept values up to 0xFFFFFF. -/
def colorTryFromU32 (val : Nat) : Except Unit Nat :=
  if val ≤ 0xFFFFFF then .ok val else .error ()

/-- Model of TryFrom of u64 for Color: narrow to u32 first. -/
def colorTryFromU64 (val : Nat) : Except Unit Nat :=
  if val ≤ 4294967295 then colorTryFromU32 val else .error ()

/-- Model of ColorVisitor::visit_u64: TryFrom of u64, any failure becomes a
value-out-of-range error. -/
def colorVisitU64 (val : Nat) : Except DecodeError Nat :=
  match colorTryFromU64 val with
  | .ok c => .ok c
  | .error _ => .error .invalid

/-- Model of char::to_digit(16), which works on the numeric value of the
character: decimal digits, then the lowercase and uppercase hex letters. -/
def hexDigitVal (c : Char) : Option Nat :=
  let v := c.toNat
  if 48 ≤ v ∧ v ≤ 57 then some (v - 48)
  else if 97 ≤ v ∧ v ≤ 102 then some (v - 87)
  else if 65 ≤ v ∧ v ≤ 70 then some (v - 55)
  else none

/-- Digit loop of u32::from_str_radix with radix 16: most significant
first, checked arithmetic against u32 overflow. -/
def hexDigitsU32 : List Char → Nat → Option Nat
  | [], acc => some acc
  | c :: cs, acc =>
    match hexDigitVal c with
    | some d =>
      if acc * 16 + d < 2 ^ 32 then hexDigitsU32 cs (acc * 16 + d) else none
    | none => none

/-- Model of u32::from_str_radix(base 16): an optional leading plus sign
followed by one or more hexadecimal digits. -/
def fromStrRadix16 (cs : List Char) : Option Nat :=
  let cs := stripSign cs
  if cs.isEmpty then none else hexDigitsU32 cs 0

/-- Prefix stripping of FromStr for Color: drop a leading number-sign
character, or else a leading 0x. -/
def colorStrip (cs : List Char) : List Char :=
  if cs.head? = some '#' then cs.tail
  else if cs.take 2 = ['0', 'x'] then cs.drop 2
  else cs

/-- Model of FromStr for Color: strip the prefix, require exactly six
remaining characters, parse them as hexadecimal with u32::from_str_radix,
then TryFrom of u32. -/
def colorFromStr (s : String) : Except Unit Nat :=
  let cs := colorStrip s.data
  if cs.length ≠ 6 then .error ()
  else
    match fromStrRadix16 cs with
    | some v => colorTryFromU32 v
    | none => .error ()

/-! ### Gateway payload decoder (src/event.rs lines 26-172)

The Deserialize implementation of Payload walks the keys of the JSON object
in document order, collecting t, s and op, and builds the Payload when the
d key is reached.  Event variants whose bodies are plain data records carry
the raw Json value of d (record decoding is out of scope, see the header
comment); Hello and InvalidSession are decoded in full, and the branches
that the source feeds to IgnoredAny carry nothing. -/

/-- Gateway event sum type (src/event.rs lines 174-209). -/
inductive Event where
  | hello (heartbeatInterval : Nat)
  | ready (d : Json)
  | resumed
  | invalidSession (resumable : Bool)
  | heartbeatAck
  | guildCreate (d : Json)
  | guildUpdate (d : Json)
  | guildDelete (d : Json)
  | messageCreate (d : Json)
  | messageUpdate (d : Json)
  | messageDelete (d : Json)
  | guildMemberAdd (d : Json)
  | guildMemberUpdate (d : Json)
  | guildMemberRemove (d : Json)
  | guildMembersChunk (d : Json)
  | guildRoleCreate (d : Json)
  | guildRoleUpdate (d : Json)
  | guildRoleDelete (d : Json)
  | channelCreate (d : Json)
  | channelUpdate (d : Json)
  | channelDelete (d : Json)
  | applicationCommandCreate (d : Json)
  | applicationCommandUpdate (d : Json)
  | applicationCommandDelete (d : Json)
  | interactionCreate (d : Json)
  | voiceStateUpdate (d : Json)
  | voiceServerUpdate (d : Json)
  | unknown (tag : String)

/-- Gateway payload: optional sequence number and event
(src/event.rs lines 11-15). -/
structure Payload where
  sequence : Option Nat
  event : Event

/-- Model of next_value::<u8> on a JSON token. -/
def decodeU8 : Json → Except DecodeError Nat
  | .num n => if n < 256 then .ok n else .error .invalid
  | _ => .error .invalid

/-- Model of next_value::<Option<u64>> on a JSON token. -/
def decodeOptU64 : Json → Except DecodeError (Option Nat)
  | .null => .ok none
  | .num n => if n < 2 ^ 64 then .ok (some n) else .error .invalid
  | _ => .error .invalid

/-- Model of next_value::<Option<String>> on a JSON token. -/
def decodeOptString : Json → Except DecodeError (Option String)
  | .null => .ok none
  | .str s => .ok (some s)
  | _ => .error .invalid

/-- Model of next_value::<u64> on a JSON token. -/
def decodeU64 : Json → Except DecodeError Nat
  | .num n => if n < 2 ^ 64 then .ok n else .error .invalid
  | _ => .error .invalid

/-- Field loop of the derived Deserialize for Hello: the single required
field heartbeat_interval of type u64; a repeated occurrence is a duplicate
field, unknown fields are ignored, absence is a missing field. -/
def helloFields : List (String × Json) → Option Nat → Except DecodeError Nat
  | [], none => .error (.missingField "heartbeat_interval")
  | [], some v => .ok v
  | (k, v) :: rest, acc =>
    if k = "heartbeat_interval" then
      match acc with
      | some _ => .error (.duplicateField "heartbeat_interval")
      | none =>
        match decodeU64 v with
        | .ok n => helloFields rest (some n)
        | .error e => .error e
    else helloFields rest acc

/-- Model of next_value::<Hello>: the body must be a JSON object. -/
def helloDecode : Json → Except DecodeError Event
  | .obj fields =>
    match helloFields fields none with
    | .ok n => .ok (.hello n)
    | .error e => .error e
  | _ => .error .invalid

/-- Model of next_value::<InvalidSession> (a transparent bool). -/
def invalidSessionDecode : Json → Except DecodeError Event
  | .bool b => .ok (.invalidSession b)
  | _ => .error .invalid

/-- Type tags of the dispatch table of src/event.rs lines 82-147, in source
order. -/
def knownTags : List String :=
  ["READY", "RESUMED", "GUILD_CREATE", "GUILD_UPDATE", "GUILD_DELETE",
   "MESSAGE_CREATE", "MESSAGE_UPDATE", "MESSAGE_DELETE",
   "GUILD_MEMBER_ADD", "GUILD_MEMBER_UPDATE", "GUILD_MEMBER_REMOVE",
   "GUILD_MEMBERS_CHUNK",
   "GUILD_ROLE_CREATE", "GUILD_ROLE_UPDATE", "GUILD_ROLE_DELETE",
   "CHANNEL_CREATE", "CHANNEL_UPDATE", "CHANNEL_DELETE",
   "APPLICATION_COMMAND_CREATE", "APPLICATION_COMMAND_UPDATE",
   "APPLICATION_COMMAND_DELETE",
   "INTERACTION_CREATE", "VOICE_STATE_UPDATE", "VOICE_SERVER_UPDATE"]

/-- Dispatch on the type tag for op 0 (src/event.rs lines 81-152).  The
RESUMED arm ignores its data; every other known arm hands d to the record
decoder of its variant (carried raw here); an unrecognized tag ignores its
data and produces Event::Unknown of the tag. -/
def dispatchEvent (tag : String) (d : Json) : Event :=
  if tag = "READY" then .ready d
  else if tag = "RESUMED" then .resumed
  else if tag = "GUILD_CREATE" then .guildCreate d
  else if tag = "GUILD_UPDATE" then .guildUpdate d
  else if tag = "GUILD_DELETE" then .guildDelete d
  else if tag = "MESSAGE_CREATE" then .messageCreate d
  else if tag = "MESSAGE_UPDATE" then .messageUpdate d
  else if tag = "MESSAGE_DELETE" then .messageDelete d
  else if tag = "GUILD_MEMBER_ADD" then .guildMemberAdd d
  else if tag = "GUILD_MEMBER_UPDATE" then .guildMemberUpdate d
  else if tag = "GUILD_MEMBER_REMOVE" then .guildMemberRemove d
  else if tag = "GUILD_MEMBERS_CHUNK" then .guildMembersChunk d
  else if tag = "GUILD_ROLE_CREATE" then .guildRoleCreate d
  else if tag = "GUILD_ROLE_UPDATE" then .guildRoleUpdate d
  else if tag = "GUILD_ROLE_DELETE" then .guildRoleDelete d
  else if tag = "CHANNEL_CREATE" then .channelCreate d
  else if tag = "CHANNEL_UPDATE" then .channelUpdate d
  else if tag = "CHANNEL_DELETE" then .channelDelete d
  else if tag = "APPLICATION_COMMAND_CREATE" then .applicationCommandCreate d
  else if tag = "APPLICATION_COMMAND_UPDATE" then .applicationCommandUpdate d
  else if tag = "APPLICATION_COMMAND_DELETE" then .applicationCommandDelete d
  else if tag = "INTERACTION_CREATE" then .interactionCreate d
  else if tag = "VOICE_STATE_UPDATE" then .voiceStateUpdate d
  else if tag = "VOICE_SERVER_UPDATE" then .voiceServerUpdate d
  else .unknown tag

/-- The match on (op, t) of src/event.rs lines 74-158, in source order:
9 InvalidSession, 10 Hello, 11 HeartbeatAck (data ignored), 0 with a tag
dispatches on the tag, 0 without a tag is a missing t field, and any other
op ignores its data and produces Event::Unknown of the decimal op. -/
def decodeEvent (op : Nat) (t : Option String) (d : Json) :
    Except DecodeError Event :=
  if op = 9 then invalidSessionDecode d
  else if op = 10 then helloDecode d
  else if op = 11 then .ok .heartbeatAck
  else if op = 0 then
    match t with
    | some tag => .ok (dispatchEvent tag d)
    | none => .error (.missingField "t")
  else .ok (.unknown (decimalRepr op))

/-- Visitor state of PayloadVisitor::visit_map: the four locals t,
sequence, op, payload of src/event.rs lines 44-47. -/
structure DecState where
  t : Option String
  sequence : Option Nat
  op : Option Nat
  payload : Option Payload

/-- Key loop of PayloadVisitor::visit_map (src/event.rs lines 48-166): for
each key in document order, the t, s, op and d arms first check their
duplicate-detection flag and then decode their value; the d arm requires op
to be already known, classifies via decodeEvent and freezes the payload
with the sequence observed so far; any other key is ignored.  At the end of
the object the payload must have been built, otherwise d is missing. -/
def visitEntries : List (String × Json) → DecState → Except DecodeError Payload
  | [], st =>
    match st.payload with
    | some p => .ok p
    | none => .error (.missingField "d")
  | (k, v) :: rest, st =>
    if k = "t" then
      match st.t with
      | some _ => .error (.duplicateField "t")
      | none =>
        match decodeOptString v with
        | .ok tv => visitEntries rest ⟨tv, st.sequence, st.op, st.payload⟩
        | .error e => .error e
    else if k = "s" then
      match st.sequence with
      | some _ => .error (.duplicateField "s")
      | none =>
        match decodeOptU64 v with
        | .ok sv => visitEntries rest ⟨st.t, sv, st.op, st.payload⟩
        | .error e => .error e
    else if k = "op" then
      match st.op with
      | some _ => .error (.duplicateField "op")
      | none =>
        match decodeU8 v with
        | .ok ov => visitEntries rest ⟨st.t, st.sequence, some ov, st.payload⟩
        | .error e => .error e
    else if k = "d" then
      match st.payload with
      | some _ => .error (.duplicateField "d")
      | none =>
        match st.op with
        | none => .error (.missingField "op")
        | some o =>
          match decodeEvent o st.t v with
          | .ok ev =>
            visitEntries rest ⟨st.t, st.sequence, st.op, some ⟨st.sequence, ev⟩⟩
          | .error e => .error e
    else visitEntries rest st

/-- Model of Deserialize for Payload: run the key loop over the document's
key-value list with the empty initial state. -/
def payloadDeserialize (frame : List (String × Json)) :
    Except DecodeError Payload :=
  visitEntries frame ⟨none, none, none, none⟩

/-! ### Arithmetic helper lemmas -/

/-- Shifted-mask extraction: masking with a block of w one-bits at offset s
and shifting right by s extracts the w-bit field at offset s. -/
theorem and_mask_shiftRight (v w s : Nat) :
    (v &&& ((2 ^ w - 1) <<< s)) >>> s = v / 2 ^ s % 2 ^ w := by
  apply Nat.eq_of_testBit_eq
  intro i
  rw [← Nat.shiftRight_eq_div_pow]
  simp [Nat.testBit_shiftRight, Nat.testBit_and, Nat.testBit_shiftLeft,
    Nat.testBit_mod_two_pow, Nat.testBit_two_pow_sub_one,
    Nat.le_add_right, Nat.add_sub_cancel_left, Bool.and_comm]

/-- Digit list of decDigits recovers the number, for sufficient fuel. -/
theorem lval_decDigits (fuel : Nat) :
    ∀ n, n ≤ fuel → lval (decDigits fuel n) = n := by
  induction fuel with
  | zero =>
    intro n h
    have hn : n = 0 := Nat.le_zero.mp h
    subst hn
    simp [decDigits, lval]
  | succ f ih =>
    intro n h
    match n with
    | 0 => simp [decDigits, lval]
    | m + 1 =>
      have hdiv : (m + 1) / 10 < m + 1 := Nat.div_lt_self (Nat.succ_pos m) (by omega)
      have h1 : (m + 1) / 10 ≤ f := by omega
      have hv := ih ((m + 1) / 10) h1
      simp [decDigits, lval, hv]
      omega

/-- Every entry of decDigits is a decimal digit. -/
theorem decDigits_lt (fuel : Nat) :
    ∀ n d, d ∈ decDigits fuel n → d < 10 := by
  induction fuel with
  | zero =>
    intro n d h
    simp [decDigits] at h
  | succ f ih =>
    intro n d h
    match n with
    | 0 => simp [decDigits] at h
    | m + 1 =>
      simp only [decDigits, List.mem_cons] at h
      rcases h with h | h
      · omega
      · exact ih _ _ h

/-- The accumulator fold only grows. -/
theorem le_mval : ∀ (ds : List Nat) (acc : Nat), acc ≤ mval ds acc
  | [], acc => Nat.le_refl acc
  | d :: ds, acc => by
    have h := le_mval ds (acc * 10 + d)
    simp only [mval]
    omega

/-- Appending digit lists composes the accumulator fold. -/
theorem mval_append (xs ys : List Nat) (acc : Nat) :
    mval (xs ++ ys) acc = mval ys (mval xs acc) := by
  induction xs generalizing acc with
  | nil => rfl
  | cons d xs ih => simp [mval, ih]

/-- The accumulator fold of a reversed little-endian digit list. -/
theorem mval_reverse (l : List Nat) (acc : Nat) :
    mval l.reverse acc = acc * 10 ^ l.length + lval l := by
  induction l generalizing acc with
  | nil => simp [mval, lval]
  | cons d l ih =>
    simp only [List.reverse_cons, mval_append, mval, lval, ih, List.length_cons]
    ring

/-- The u64 digit loop succeeds on digit characters whose value fits. -/
theorem parseU64Digits_map : ∀ (ds : List Nat) (acc : Nat),
    (∀ d ∈ ds, d < 10) → mval ds acc < 2 ^ 64 →
    parseU64Digits (ds.map digitChar) acc = some (mval ds acc)
  | [], acc, _, _ => by simp [parseU64Digits, mval]
  | d :: ds, acc, hd, hb => by
    have hd10 : d < 10 := hd d (List.mem_cons_self d ds)
    have hdig : (digitChar d).isDigit = true := by
      interval_cases d <;> decide
    have htn : (digitChar d).toNat - 48 = d := by
      interval_cases d <;> decide
    have hb' : mval ds (acc * 10 + d) < 2 ^ 64 := by
      simpa [mval] using hb
    have hlt : acc * 10 + d < 2 ^ 64 :=
      Nat.lt_of_le_of_lt (le_mval ds (acc * 10 + d)) hb'
    simp only [List.map_cons, parseU64Digits, hdig, htn, if_true, hlt,
      if_pos, mval]
    exact parseU64Digits_map ds (acc * 10 + d)
      (fun x hx => hd x (List.mem_cons_of_mem d hx)) hb'

/-- Stripping the sign of a list that does not start with a plus sign. -/
theorem stripSign_of_head_ne (c : Char) (cs : List Char) (h : c ≠ '+') :
    stripSign (c :: cs) = c :: cs := by
  unfold stripSign
  split
  · next heq =>
    injection heq with h1 _
    exact absurd h1 h
  · rfl

/-- Parsing inverts decimal printing on every u64 value. -/
theorem parseU64_decimalRepr (v : Nat) (hv : v < 2 ^ 64) :
    parseU64 (decimalRepr v) = some v := by
  match v with
  | 0 => rfl
  | n + 1 =>
    have hL : decDigits (n + 1) (n + 1)
        = ((n + 1) % 10) :: decDigits n ((n + 1) / 10) := rfl
    have hlv : lval (decDigits (n + 1) (n + 1)) = n + 1 :=
      lval_decDigits (n + 1) (n + 1) (Nat.le_refl _)
    have hmv : mval (decDigits (n + 1) (n + 1)).reverse 0 = n + 1 := by
      rw [mval_reverse, hlv, Nat.zero_mul, Nat.zero_add]
    have hd10 : ∀ d ∈ (decDigits (n + 1) (n + 1)).reverse, d < 10 := by
      intro d hd
      exact decDigits_lt (n + 1) (n + 1) d (List.mem_reverse.mp hd)
    have hrepr : decimalRepr (n + 1)
        = String.mk (((decDigits (n + 1) (n + 1)).reverse).map digitChar) := by
      simp [decimalRepr]
    rw [hrepr, parseU64]
    obtain ⟨d0, ds, hcons⟩ :
        ∃ d0 ds, (decDigits (n + 1) (n + 1)).reverse = d0 :: ds := by
      rw [hL]
      rcases hrev : (decDigits n ((n + 1) / 10)).reverse with _ | ⟨a, l⟩
      · exact ⟨(n + 1) % 10, [], by simp [List.reverse_cons, hrev]⟩
      · exact ⟨a, l ++ [(n + 1) % 10], by simp [List.reverse_cons, hrev]⟩
    have hd0 : d0 < 10 := hd10 d0 (by simp [hcons])
    have hne : digitChar d0 ≠ '+' := by
      interval_cases d0 <;> decide
    have hd10c : ∀ d ∈ d0 :: ds, d < 10 := by
      rw [← hcons]
      exact hd10
    have hmvc : mval (d0 :: ds) 0 = n + 1 := by
      rw [← hcons]
      exact hmv
    rw [hcons]
    simp only [List.map_cons]
    rw [stripSign_of_head_ne (digitChar d0) (ds.map digitChar) hne]
    simp only [List.isEmpty_cons, Bool.false_eq_true, if_false]
    rw [show digitChar d0 :: ds.map digitChar = (d0 :: ds).map digitChar from rfl]
    rw [parseU64Digits_map (d0 :: ds) 0 hd10c (by rw [hmvc]; exact hv), hmvc]

/-! ### Hex parsing lemmas -/

/-- Value of a most-significant-first hexadecimal character list. -/
def hexVal : List Char → Nat → Nat
  | [], acc => acc
  | c :: cs, acc => hexVal cs (acc * 16 + (hexDigitVal c).getD 0)

/-- A recognized hexadecimal digit is below 16. -/
theorem hexDigitVal_lt (c : Char) (d : Nat) (h : hexDigitVal c = some d) :
    d < 16 := by
  simp only [hexDigitVal] at h
  split_ifs at h with h1 h2 h3 <;> injection h with h <;> omega

/-- The hexadecimal fold only grows. -/
theorem le_hexVal : ∀ (cs : List Char) (acc : Nat), acc ≤ hexVal cs acc
  | [], acc => Nat.le_refl acc
  | c :: cs, acc => by
    have h := le_hexVal cs (acc * 16 + (hexDigitVal c).getD 0)
    simp only [hexVal]
    omega

/-- Bound on the hexadecimal fold of recognized digits. -/
theorem hexVal_le : ∀ (cs : List Char) (acc : Nat),
    (∀ c ∈ cs, (hexDigitVal c).isSome) →
    hexVal cs acc ≤ acc * 16 ^ cs.length + (16 ^ cs.length - 1)
  | [], acc, _ => by simp [hexVal]
  | c :: cs, acc, hhex => by
    obtain ⟨d, hd⟩ := Option.isSome_iff_exists.mp
      (hhex c (List.mem_cons_self c cs))
    have hd16 : d < 16 := hexDigitVal_lt c d hd
    have ih := hexVal_le cs (acc * 16 + d)
      (fun x hx => hhex x (List.mem_cons_of_mem c hx))
    have hpow : 0 < 16 ^ cs.length := Nat.pos_pow_of_pos cs.length (by omega)
    simp only [hexVal, hd, Option.getD_some, List.length_cons, Nat.pow_succ]
    calc hexVal cs (acc * 16 + d)
        ≤ (acc * 16 + d) * 16 ^ cs.length + (16 ^ cs.length - 1) := ih
      _ ≤ acc * (16 ^ cs.length * 16) + (16 ^ cs.length * 16 - 1) := by
          have : d * 16 ^ cs.length ≤ 15 * 16 ^ cs.length :=
            Nat.mul_le_mul_right _ (by omega)
          ring_nf
          ring_nf at this
          omega

/-- The u32 hex digit loop succeeds on recognized digits whose value
fits. -/
theorem hexDigitsU32_eq : ∀ (cs : List Char) (acc : Nat),
    (∀ c ∈ cs, (hexDigitVal c).isSome) → hexVal cs acc < 2 ^ 32 →
    hexDigitsU32 cs acc = some (hexVal cs acc)
  | [], acc, _, _ => by simp [hexDigitsU32, hexVal]
  | c :: cs, acc, hhex, hb => by
    obtain ⟨d, hd⟩ := Option.isSome_iff_exists.mp
      (hhex c (List.mem_cons_self c cs))
    have hb' : hexVal cs (acc * 16 + d) < 2 ^ 32 := by
      simpa [hexVal, hd] using hb
    have hlt : acc * 16 + d < 2 ^ 32 :=
      Nat.lt_of_le_of_lt (le_hexVal cs (acc * 16 + d)) hb'
    simp only [hexDigitsU32, hd, hlt, if_pos, hexVal, Option.getD_some]
    exact hexDigitsU32_eq cs (acc * 16 + d)
      (fun x hx => hhex x (List.mem_cons_of_mem c hx)) hb'

/-! ### Decoder helper lemmas -/

/-- Dispatch of a tag outside the dispatch table yields the Unknown
variant carrying the tag. -/
theorem dispatchEvent_of_not_mem (tag : String) (d : Json)
    (h : tag ∉ knownTags) : dispatchEvent tag d = .unknown tag := by
  simp [knownTags] at h
  obtain ⟨h1, h2, h3, h4, h5, h6, h7, h8, h9, h10, h11, h12, h13, h14, h15,
    h16, h17, h18, h19, h20, h21, h22, h23, h24⟩ := h
  simp [dispatchEvent, h1, h2, h3, h4, h5, h6, h7, h8, h9, h10, h11, h12,
    h13, h14, h15, h16, h17, h18, h19, h20, h21, h22, h23, h24]

/-! ### Claim C1 -/

/-- C1 counterexample: the claim says that a frame in which d precedes op
still decodes successfully and identically to the op-before-d ordering.
In fact the frame with d first fails with MissingField op, while the same
two fields in the op-before-d order decode successfully. -/
theorem claim1_counterexample :
    payloadDeserialize [("d", Json.null), ("op", Json.num 11)]
      = .error (.missingField "op") ∧
    payloadDeserialize [("op", Json.num 11), ("d", Json.null)]
      = .ok ⟨none, .heartbeatAck⟩ :=
  ⟨rfl, rfl⟩

/-- C1 amended: the decoder does not buffer d; it requires op to have been
observed before d, and fails with MissingField op whenever d arrives first
(first conjunct, for any frame whose keys before d are all unrecognized
ones).  Among the semantic keys observed before d, order is irrelevant:
every permutation of op, t, s in front of d classifies identically (second
group of conjuncts). -/
theorem claim1_order_dependence :
    (∀ (pre : List (String × Json)) (v : Json) (rest : List (String × Json)),
      (∀ p ∈ pre, p.1 ∉ (["t", "s", "op", "d"] : List String)) →
      payloadDeserialize (pre ++ ("d", v) :: rest)
        = .error (.missingField "op")) ∧
    (∀ (o n : Nat) (tag : String) (v : Json), o < 256 → n < 2 ^ 64 →
      (payloadDeserialize
          [("t", .str tag), ("op", .num o), ("s", .num n), ("d", v)]
        = payloadDeserialize
          [("op", .num o), ("t", .str tag), ("s", .num n), ("d", v)]) ∧
      (payloadDeserialize
          [("t", .str tag), ("s", .num n), ("op", .num o), ("d", v)]
        = payloadDeserialize
          [("op", .num o), ("t", .str tag), ("s", .num n), ("d", v)]) ∧
      (payloadDeserialize
          [("s", .num n), ("t", .str tag), ("op", .num o), ("d", v)]
        = payloadDeserialize
          [("op", .num o), ("t", .str tag), ("s", .num n), ("d", v)]) ∧
      (payloadDeserialize
          [("s", .num n), ("op", .num o), ("t", .str tag), ("d", v)]
        = payloadDeserialize
          [("op", .num o), ("t", .str tag), ("s", .num n), ("d", v)]) ∧
      (payloadDeserialize
          [("op", .num o), ("s", .num n), ("t", .str tag), ("d", v)]
        = payloadDeserialize
          [("op", .num o), ("t", .str tag), ("s", .num n), ("d", v)])) := by
  constructor
  · intro pre v rest hpre
    induction pre with
    | nil => rfl
    | cons p pre ih =>
      obtain ⟨k, w⟩ := p
      have hk := hpre ⟨k, w⟩ (List.mem_cons_self _ _)
      simp [List.mem_cons] at hk
      obtain ⟨hk1, hk2, hk3, hk4⟩ := hk
      simp [payloadDeserialize, visitEntries, hk1, hk2, hk3, hk4]
      exact ih (fun q hq => hpre q (List.mem_cons_of_mem _ hq))
  · intro o n tag v h256 h64n
    have h64 : n < 18446744073709551616 := by omega
    refine ⟨?_, ?_, ?_, ?_, ?_⟩ <;>
      simp [payloadDeserialize, visitEntries, decodeU8, decodeOptU64,
        decodeOptString, h256, h64]

/-- C1 witness: the order-dependence theorem applied at concrete inputs,
discharging its hypotheses there. -/
theorem claim1_order_dependence_witness :
    payloadDeserialize [("x", Json.null), ("d", Json.null)]
      = .error (.missingField "op") :=
  claim1_order_dependence.1 [("x", Json.null)] Json.null [] (by decide)

/-! ### Claim C2 -/

/-- C2 counterexample: the claim says sequence is None exactly for
non-dispatch operation codes.  The frame with op 11 and a numeric s decodes
successfully with sequence Some 5 although 11 is not the dispatch code. -/
theorem claim2_counterexample :
    payloadDeserialize
        [("op", Json.num 11), ("s", Json.num 5), ("d", Json.null)]
      = .ok ⟨some 5, .heartbeatAck⟩ ∧ (11 : Nat) ≠ 0 :=
  ⟨rfl, by decide⟩

/-- C2 amended: the decoded sequence is not tied to the operation code; it
is simply the value of the s key observed before the d key (Some n when a
numeric s precedes d, None when no s precedes d), for dispatch and
non-dispatch frames alike. -/
theorem claim2_sequence_not_tied_to_op (n : Nat) (v : Json)
    (hn : n < 2 ^ 64) :
    payloadDeserialize [("op", .num 11), ("s", .num n), ("d", v)]
      = .ok ⟨some n, .heartbeatAck⟩ ∧
    payloadDeserialize [("op", .num 11), ("d", v)]
      = .ok ⟨none, .heartbeatAck⟩ := by
  have h64 : n < 18446744073709551616 := by omega
  constructor <;>
    simp [payloadDeserialize, visitEntries, decodeU8, decodeOptU64,
      decodeEvent, h64]

/-- C2 witness: the amended theorem applied at a concrete input. -/
theorem claim2_sequence_not_tied_to_op_witness :
    5 < 2 ^ 64 ∧
    payloadDeserialize [("op", .num 11), ("s", .num 5), ("d", .null)]
      = .ok ⟨some 5, .heartbeatAck⟩ :=
  ⟨by decide, (claim2_sequence_not_tied_to_op 5 Json.null (by decide)).1⟩

/-! ### Claim C3 -/

/-- C3 counterexample: the claim says the user-flags decode masks unknown
and high bits away and never fails because of them.  In fact a token with
only the unknown bit 4 set fails, and a token with only the high bit 33 set
fails as well; nothing is masked. -/
theorem claim3_counterexample :
    userFlagsDeserialize 16 = .error .invalid ∧
    userFlagsDeserialize (2 ^ 33) = .error .invalid :=
  ⟨rfl, rfl⟩

/-- C3 amended: the user-flags decode is strict, exactly like the other
flag sets: a numeric token decodes successfully if and only if its value
fits in 32 bits and every set bit is a declared named bit, in which case
re-encoding returns the same value; any other token fails with the
invalid-value error.  Only the encode side uses the 64-bit width. -/
theorem claim3_userflags_strict (v : Nat) (hv : v < 2 ^ 64) :
    (v &&& userFlagsAllBits = v →
      userFlagsDeserialize v = .ok v ∧ userFlagsSerialize v = v) ∧
    (v &&& userFlagsAllBits ≠ v →
      userFlagsDeserialize v = .error .invalid) := by
  have hall : userFlagsAllBits = 5199823 := by decide
  constructor
  · intro hand
    have hle : v &&& userFlagsAllBits ≤ userFlagsAllBits := Nat.and_le_right
    have h32 : v < 4294967296 := by rw [hand] at hle; omega
    simp [userFlagsDeserialize, bitFlagsVisitU64, userFlagsSerialize,
      h32, hand]
  · intro hand
    by_cases h32 : v < 4294967296
    · simp [userFlagsDeserialize, bitFlagsVisitU64, h32, hand]
    · simp [userFlagsDeserialize, bitFlagsVisitU64, h32]

/-- C3 witness: the strictness theorem applied at the declared value 16385
(bits 0 and 14, both named user flags). -/
theorem claim3_userflags_strict_witness :
    userFlagsDeserialize 16385 = .ok 16385 ∧ userFlagsSerialize 16385 = 16385 :=
  (claim3_userflags_strict 16385 (by decide)).1 (by decide)

/-! ### Claim C4 -/

/-- C4: a dispatch frame whose type tag is outside the dispatch table, and
a frame whose operation code is outside the op table, both decode
successfully to the Unknown variant — carrying the tag string in the first
case and the decimal string of the operation code in the second — for
every data value, which is consumed and discarded. -/
theorem claim4_unknown_forward_compat (tag : String) (d : Json) (o n : Nat)
    (htag : tag ∉ knownTags) (h256 : o < 256)
    (hop : o ∉ ([0, 9, 10, 11] : List Nat)) (hn : n < 2 ^ 64) :
    payloadDeserialize
        [("op", .num 0), ("t", .str tag), ("s", .num n), ("d", d)]
      = .ok ⟨some n, .unknown tag⟩ ∧
    payloadDeserialize [("op", .num 0), ("t", .str tag), ("d", d)]
      = .ok ⟨none, .unknown tag⟩ ∧
    payloadDeserialize [("op", .num o), ("d", d)]
      = .ok ⟨none, .unknown (decimalRepr o)⟩ := by
  have h64 : n < 18446744073709551616 := by omega
  have hdt : dispatchEvent tag d = .unknown tag :=
    dispatchEvent_of_not_mem tag d htag
  simp [List.mem_cons] at hop
  obtain ⟨g0, g9, g10, g11⟩ := hop
  refine ⟨?_, ?_, ?_⟩ <;>
    simp [payloadDeserialize, visitEntries, decodeU8, decodeOptU64,
      decodeOptString, decodeEvent, h256, h64, hdt, g0, g9, g10, g11]

/-- C4 witness: the forward-compatibility theorem applied to the tag
SOME_NEW_EVENT with sequence 2 and to the operation code 42. -/
theorem claim4_unknown_forward_compat_witness :
    payloadDeserialize
        [("op", .num 0), ("t", .str "SOME_NEW_EVENT"), ("s", .num 2),
          ("d", .obj [("anything", .num 1)])]
      = .ok ⟨some 2, .unknown "SOME_NEW_EVENT"⟩ ∧
    payloadDeserialize [("op", .num 42), ("d", .obj [])]
      = .ok ⟨none, .unknown (decimalRepr 42)⟩ :=
  ⟨(claim4_unknown_forward_compat "SOME_NEW_EVENT" (.obj [("anything", .num 1)])
      42 2 (by decide) (by decide) (by decide) (by decide)).1,
   (claim4_unknown_forward_compat "SOME_NEW_EVENT" (.obj []) 42 2
      (by decide) (by decide) (by decide) (by decide)).2.2⟩

/-! ### Claim C5 -/

/-- C5 counterexample: the claim says any repeated occurrence of t, s, op
or d fails with DuplicateField.  A frame with two t keys whose first
occurrence is null decodes successfully: the duplicate check tests the
decoded Option, which a null first occurrence leaves unset. -/
theorem claim5_counterexample :
    payloadDeserialize
        [("t", Json.null), ("t", Json.null), ("op", Json.num 11),
          ("d", Json.null)]
      = .ok ⟨none, .heartbeatAck⟩ :=
  rfl

/-- C5 amended: a second occurrence of op or of d always fails with
DuplicateField naming the key; a second occurrence of t or of s fails with
DuplicateField only when the earlier occurrence decoded to a non-null
value, while a duplicate of t or s whose first occurrence was null is
accepted (the later occurrence simply overwrites the unset state). -/
theorem claim5_duplicate_fields (o n : Nat) (a : String)
    (x v w : Json) (rest : List (String × Json))
    (h256 : o < 256) (hn : n < 2 ^ 64) :
    payloadDeserialize (("op", .num o) :: ("op", x) :: rest)
      = .error (.duplicateField "op") ∧
    payloadDeserialize (("op", .num 11) :: ("d", v) :: ("d", w) :: rest)
      = .error (.duplicateField "d") ∧
    payloadDeserialize (("t", .str a) :: ("t", x) :: rest)
      = .error (.duplicateField "t") ∧
    payloadDeserialize (("s", .num n) :: ("s", x) :: rest)
      = .error (.duplicateField "s") ∧
    payloadDeserialize
        [("t", .null), ("t", .str a), ("op", .num 11), ("d", v)]
      = .ok ⟨none, .heartbeatAck⟩ ∧
    payloadDeserialize
        [("s", .null), ("s", .num n), ("op", .num 11), ("d", v)]
      = .ok ⟨some n, .heartbeatAck⟩ := by
  have h64 : n < 18446744073709551616 := by omega
  refine ⟨?_, ?_, ?_, ?_, ?_, ?_⟩ <;>
    simp [payloadDeserialize, visitEntries, decodeU8, decodeOptU64,
      decodeOptString, decodeEvent, h256, h64]

/-- C5 witness: the duplicate-field theorem applied at concrete inputs. -/
theorem claim5_duplicate_fields_witness :
    payloadDeserialize [("op", .num 3), ("op", .num 3)]
      = .error (.duplicateField "op") ∧
    payloadDeserialize [("s", .num 9), ("s", .num 9)]
      = .error (.duplicateField "s") :=
  ⟨(claim5_duplicate_fields 3 9 "A" (.num 3) .null .null []
      (by decide) (by decide)).1,
   (claim5_duplicate_fields 3 9 "A" (.num 9) .null .null []
      (by decide) (by decide)).2.2.2.1⟩

/-! ### Claim C6 -/

/-- C6: the strict flag set Intents rejects with the invalid-value error
every numeric token having a bit outside the declared named bits (in
particular every token of 32 bits or more), and accepts every token whose
bits are all declared, re-encoding it to the same numeric value. -/
theorem claim6_intents_strict_roundtrip (v : Nat) (hv : v < 2 ^ 64) :
    (v &&& intentsAllBits = v →
      intentsDeserialize v = .ok v ∧ intentsSerialize v = v) ∧
    (v &&& intentsAllBits ≠ v →
      intentsDeserialize v = .error .invalid) := by
  have hall : intentsAllBits = 3276799 := by decide
  constructor
  · intro hand
    have hle : v &&& intentsAllBits ≤ intentsAllBits := Nat.and_le_right
    have h32 : v < 4294967296 := by rw [hand] at hle; omega
    simp [intentsDeserialize, bitFlagsVisitU64, intentsSerialize, h32, hand]
  · intro hand
    by_cases h32 : v < 4294967296
    · simp [intentsDeserialize, bitFlagsVisitU64, h32, hand]
    · simp [intentsDeserialize, bitFlagsVisitU64, h32]

/-- C6 witness: the strictness theorem applied at the GUILD_ALL value
69631 (all declared) and at the value 131072 (bit 17, not declared). -/
theorem claim6_intents_strict_roundtrip_witness :
    (intentsDeserialize 69631 = .ok 69631 ∧ intentsSerialize 69631 = 69631) ∧
    intentsDeserialize 131072 = .error .invalid :=
  ⟨(claim6_intents_strict_roundtrip 69631 (by decide)).1 (by decide),
   (claim6_intents_strict_roundtrip 131072 (by decide)).2 (by decide)⟩

/-! ### Claim C7 -/

/-- C7: for every 64-bit value, decoding the identifier from its decimal
string and re-encoding returns exactly that string (the serializer always
emits the decimal string, and parsing inverts printing), and decoding from
the numeric token also yields the same identifier, which re-encodes to the
same decimal string. -/
theorem claim7_snowflake_roundtrip (v : Nat) (hv : v < 2 ^ 64) :
    snowflakeVisitStr (decimalRepr v) = .ok v ∧
    snowflakeSerialize v = decimalRepr v ∧
    snowflakeVisitU64 v = .ok v := by
  refine ⟨?_, rfl, rfl⟩
  simp [snowflakeVisitStr, parseU64_decimalRepr v hv]

/-- C7 witness: the round-trip theorem applied at the fixture
identifier. -/
theorem claim7_snowflake_roundtrip_witness :
    snowflakeVisitStr (decimalRepr 175928847299117063)
      = .ok 175928847299117063 :=
  (claim7_snowflake_roundtrip 175928847299117063 (by decide)).1

/-! ### Claim C8 -/

/-- C8: the decomposition functions implement the documented bit layout
(milliseconds in the high 42 bits above bit 22, worker in bits 17-21,
process in bits 12-16, increment in bits 0-11), and on the fixture
identifier 175928847299117063 they produce the instant
2016-04-30T11:18:25.796Z, worker 1, process 0 and increment 7. -/
theorem claim8_snowflake_decomposition :
    (∀ v : Nat, v < 2 ^ 64 →
      snowflakeDateTimeMillis v = v / 2 ^ 22 + DISCORD_EPOCH ∧
      snowflakeWorker v = v / 2 ^ 17 % 2 ^ 5 ∧
      snowflakeProcess v = v / 2 ^ 12 % 2 ^ 5 ∧
      snowflakeIncrement v = v % 2 ^ 12) ∧
    snowflakeDateTimeMillis 175928847299117063
      = civilToUnixMillis 2016 4 30 11 18 25 796 ∧
    snowflakeWorker 175928847299117063 = 1 ∧
    snowflakeProcess 175928847299117063 = 0 ∧
    snowflakeIncrement 175928847299117063 = 7 := by
  refine ⟨?_, by decide, by decide, by decide, by decide⟩
  intro v hv
  refine ⟨?_, ?_, ?_, ?_⟩
  · rw [snowflakeDateTimeMillis, Nat.shiftRight_eq_div_pow]
  · have h : (0x3E0000 : Nat) = (2 ^ 5 - 1) <<< 17 := by decide
    rw [snowflakeWorker, h, and_mask_shiftRight]
  · have h : (0x1F000 : Nat) = (2 ^ 5 - 1) <<< 12 := by decide
    rw [snowflakeProcess, h, and_mask_shiftRight]
  · have h := and_mask_shiftRight v 12 0
    simp only [Nat.shiftLeft_zero, Nat.shiftRight_zero, Nat.pow_zero,
      Nat.div_one] at h
    rw [snowflakeIncrement]
    simpa using h

/-- C8 witness: the layout part of the decomposition theorem applied at
the fixture identifier. -/
theorem claim8_snowflake_decomposition_witness :
    snowflakeWorker 175928847299117063
      = 175928847299117063 / 2 ^ 17 % 2 ^ 5 :=
  (claim8_snowflake_decomposition.1 175928847299117063 (by decide)).2.1

/-! ### Claim C9 -/

/-- C9 counterexample: the claim says hex-string construction accepts
exactly six hexadecimal digits after stripping the prefix.  The string
with a plus sign followed by five hex digits is accepted as well, because
u32::from_str_radix allows an optional leading plus sign; the plus sign is
not a hexadecimal digit. -/
theorem claim9_counterexample :
    colorFromStr "#+12345" = .ok 74565 ∧ hexDigitVal '+' = none :=
  ⟨rfl, rfl⟩

/-- C9 amended: numeric color decoding accepts exactly the tokens up to
0xFFFFFF (16777215 succeeds, 16777216 fails with the invalid-value error);
hex-string construction requires exactly six characters after stripping a
number-sign or 0x prefix and parses them with u32::from_str_radix, which
accepts six hexadecimal digits — and also an optional leading plus sign
followed by hex digits; any six hexadecimal digits are accepted with their
hexadecimal value, the two prefixes agree, and a stripped length other
than six is rejected. -/
theorem claim9_color_bounds_hex :
    colorVisitU64 16777215 = .ok 16777215 ∧
    colorVisitU64 16777216 = .error .invalid ∧
    colorFromStr "#1a2b3c" = .ok 1715004 ∧
    colorFromStr "0x1a2b3c" = .ok 1715004 ∧
    (∀ s : String, (colorStrip s.data).length ≠ 6 →
      colorFromStr s = .error ()) ∧
    (∀ cs : List Char, cs.length = 6 →
      (∀ c ∈ cs, (hexDigitVal c).isSome) →
      colorFromStr (String.mk ('#' :: cs)) = .ok (hexVal cs 0) ∧
      colorFromStr (String.mk ('0' :: 'x' :: cs)) = .ok (hexVal cs 0)) := by
  refine ⟨rfl, rfl, rfl, rfl, ?_, ?_⟩
  · intro s h
    simp [colorFromStr, h]
  · intro cs hlen hhex
    have hb : hexVal cs 0 ≤ 16777215 := by
      have := hexVal_le cs 0 hhex
      rw [hlen] at this
      simpa using this
    have hdig : hexDigitsU32 cs 0 = some (hexVal cs 0) :=
      hexDigitsU32_eq cs 0 hhex (by omega)
    obtain ⟨c0, cs', hcs⟩ : ∃ c0 cs', cs = c0 :: cs' := by
      cases cs with
      | nil => simp at hlen
      | cons a l => exact ⟨a, l, rfl⟩
    subst hcs
    have hc0 : c0 ≠ '+' := by
      intro he
      have := hhex c0 (by simp)
      rw [he] at this
      simp [hexDigitVal] at this
    have hlen5 : cs'.length = 5 := by simpa using hlen
    have hstrip : stripSign (c0 :: cs') = c0 :: cs' :=
      stripSign_of_head_ne c0 cs' hc0
    constructor <;>
      simp [colorFromStr, colorStrip, fromStrRadix16, hstrip, hdig, hlen5,
        colorTryFromU32, hb]

/-- C9 witness: the amended theorem applied to the six hex digits of
1a2b3c. -/
theorem claim9_color_bounds_hex_witness :
    colorFromStr (String.mk ('#' :: ['1', 'a', '2', 'b', '3', 'c']))
      = .ok (hexVal ['1', 'a', '2', 'b', '3', 'c'] 0) :=
  (claim9_color_bounds_hex.2.2.2.2.2 ['1', 'a', '2', 'b', '3', 'c']
    (by decide) (by decide)).1

/-! ### Claim C10 -/

/-- C10: when the s key appears only after the d key, the decoded sequence
is None even though a numeric s is present, because the payload freezes
the sequence observed before d; likewise a null s before d is what gets
stored even if a numeric s follows d. -/
theorem claim10_sequence_after_d_ignored (n : Nat) (v : Json)
    (hn : n < 2 ^ 64) :
    payloadDeserialize [("op", .num 11), ("d", v), ("s", .num n)]
      = .ok ⟨none, .heartbeatAck⟩ ∧
    payloadDeserialize
        [("s", .null), ("op", .num 11), ("d", v), ("s", .num n)]
      = .ok ⟨none, .heartbeatAck⟩ := by
  have h64 : n < 18446744073709551616 := by omega
  constructor <;>
    simp [payloadDeserialize, visitEntries, decodeU8, decodeOptU64,
      decodeEvent, h64]

/-- C10 witness: the theorem applied at a concrete frame with sequence 7
after the d key. -/
theorem claim10_sequence_after_d_ignored_witness :
    payloadDeserialize [("op", .num 11), ("d", .null), ("s", .num 7)]
      = .ok ⟨none, .heartbeatAck⟩ :=
  (claim10_sequence_after_d_ignored 7 Json.null (by decide)).1
